import Mathlib

/-!
Verification of the Milk compiler backend against its specification.

Each Rust source construct that a claim depends on is embedded as an
executable Lean definition, translated directly from the source file it
names.  Components of the repository that the sources only reference
(the scope chain, the register allocator, the primitive type enum) are
modelled from the specification and marked as such in their doc
comments.
-/

namespace Milk

/-- Modelled from the spec: the language type enum (`types::Type` /
`type_::Type`, not under `src/`).  Spec section 3: tagged union over
SignedInt(width), UnsignedInt(width), Bool, Pointer, Array, Struct,
Function, Named (written `Custom` in the sources that are present) and
Null. -/
inductive Ty where
  | signedInt (width : Nat)
  | unsignedInt (width : Nat)
  | bool
  | ptr (inner : Ty)
  | array (inner : Ty) (len : Nat)
  | structT (name : String)
  | function (params : List Ty) (ret : Ty)
  | custom (name : String)
  | null

mutual

/-- Modelled from the spec: structural equality on types, standing in
for the derived `PartialEq` on the Rust type enum. -/
def Ty.beq : Ty → Ty → Bool
  | .signedInt a, .signedInt b => a == b
  | .unsignedInt a, .unsignedInt b => a == b
  | .bool, .bool => true
  | .ptr a, .ptr b => Ty.beq a b
  | .array a n, .array b m => Ty.beq a b && n == m
  | .structT a, .structT b => a == b
  | .function ps r, .function qs s => Ty.beqList ps qs && Ty.beq r s
  | .custom a, .custom b => a == b
  | .null, .null => true
  | _, _ => false

/-- Pointwise `Ty.beq` over parameter lists. -/
def Ty.beqList : List Ty → List Ty → Bool
  | [], [] => true
  | a :: la, b :: lb => Ty.beq a b && Ty.beqList la lb
  | _, _ => false

end

instance : BEq Ty := ⟨Ty.beq⟩

/-- Embeds `SymbolGlobal` from `src/symbol_table.rs`. -/
structure SymbolGlobal where
  name : String
  type_ : Ty

/-- Embeds `SymbolLocal` from `src/symbol_table.rs`. -/
structure SymbolLocal where
  name : String
  offset : Nat
  type_ : Ty

/-- Embeds `SymbolParam` from `src/symbol_table.rs`. -/
structure SymbolParam where
  name : String
  n : Nat
  type_ : Ty

/-- Embeds `SymbolFunction` from `src/symbol_table.rs`. -/
structure SymbolFunction where
  name : String
  return_type : Ty
  parameters : List Ty

/-- Embeds `Symbol` from `src/symbol_table.rs`. -/
inductive Symbol where
  | global (g : SymbolGlobal)
  | localS (l : SymbolLocal)
  | param (p : SymbolParam)
  | function (f : SymbolFunction)

/-- Embeds `Symbol::name` from `src/symbol_table.rs`. -/
def Symbol.name : Symbol → String
  | .global g => g.name
  | .localS l => l.name
  | .param p => p.name
  | .function f => f.name

/-- Embeds `SymbolTableError` from `src/symbol_table.rs`. -/
inductive SymbolTableError where
  | redeclaration (name : String)
  | notFound (name : String)
deriving Repr, DecidableEq, BEq

/-- Embeds `MAX_SYMBOLS` from `src/symbol_table.rs`. -/
def MAX_SYMBOLS : Nat := 512

/-- Embeds `SymbolTable` from `src/symbol_table.rs` (a `Vec<Symbol>`). -/
abbrev SymbolTable := List Symbol

/-- Embeds `SymbolTable::find` from `src/symbol_table.rs`. -/
def SymbolTable.find (st : SymbolTable) (name : String) : Option Symbol :=
  List.find? (fun symbol => symbol.name == name) st

/-- Embeds `SymbolTable::push` from `src/symbol_table.rs`.  The Rust
method first runs `assert!(self.0.len() < MAX_SYMBOLS)`;  a failing
assertion aborts the process, which the embedding renders as `none`.
Otherwise it returns the redeclaration error and the unchanged table
when the name is already present, and appends the symbol when it is
fresh. -/
def SymbolTable.push (st : SymbolTable) (symbol : Symbol) :
    Option (Except SymbolTableError Unit × SymbolTable) :=
  if st.length < MAX_SYMBOLS then
    if (List.map Symbol.name st).contains symbol.name then
      some (.error (.redeclaration symbol.name), st)
    else
      some (.ok (), st ++ [symbol])
  else
    none

/-- Embeds `TypeStruct` from `src/type_table.rs`. -/
structure TypeStruct where
  name : String
  fields : List (String × Ty)

/-- Embeds `TypeStruct::size` from `src/type_table.rs`: the sum of the
field sizes, with no padding.  The parameter `sz` stands for the
`type_.size(arch, scope)` method of the type enum, whose implementation
is not under `src/` (spec section 4.1 describes it). -/
def TypeStruct.size (ts : TypeStruct) (sz : Ty → Nat) : Nat :=
  (ts.fields.map fun f => sz f.2).sum

/-- Embeds the accumulator loop of `TypeStruct::offset` from
`src/type_table.rs`: walk the fields, stopping at the first field whose
name matches, accumulating the sizes of the fields walked past. -/
def offsetLoop (sz : Ty → Nat) (name : String) : List (String × Ty) → Nat
  | [] => 0
  | (field_name, t) :: rest =>
      if name = field_name then 0 else sz t + offsetLoop sz name rest

/-- Embeds `TypeStruct::offset` from `src/type_table.rs`. -/
def TypeStruct.offset (ts : TypeStruct) (sz : Ty → Nat) (name : String) : Nat :=
  offsetLoop sz name ts.fields

/-- Embeds `TypeStruct::contains` from `src/type_table.rs`. -/
def TypeStruct.containsField (ts : TypeStruct) (field : String) : Bool :=
  ts.fields.any fun f => f.1 == field

/-- Embeds `Amd64::mov_impl` from `src/archs/amd64/amd64.rs` lines
284-302: the emitted instruction text as a function of the displayed
source and destination operands, their byte sizes, and the source
signedness. -/
def mov_impl (src : String) (src_size : Nat) (dest : String) (dest_size : Nat)
    (signed : Bool) : String :=
  if dest_size > src_size then
    if signed then
      "\tmovsx " ++ dest ++ ", " ++ src ++ "\n"
    else
      "\tmovzx " ++ dest ++ ", " ++ src ++ "\n"
  else
    "\tmov " ++ dest ++ ", " ++ src ++ "\n"

/-- Embeds the `chunk_size` match inside `Amd64::mov_local`
(`src/archs/amd64/amd64.rs` lines 335-341): `8.. => 8`, `4..=7 => 4`,
`2..=3 => 2`, `1 => 1`; the `0` arm is unreachable because the loop
guard requires a positive remaining size. -/
def chunkSize (size : Nat) : Nat :=
  if 8 ≤ size then 8
  else if 4 ≤ size then 4
  else if 2 ≤ size then 2
  else 1

/-- One iteration of the local-to-local copy loop of `Amd64::mov_local`:
the chunk's byte size, the offset added to the scratch base register on
the load (`size - chunk_size` in the source, with `size` the bytes still
remaining), and the `local.offset` used by the store's destination
operand. -/
structure ChunkMove where
  chunk_size : Nat
  src_offset : Nat
  dest_offset : Nat
deriving Repr, DecidableEq

/-- Embeds the `while size > 0` loop of the `MoveDestination::Local`
branch of `Amd64::mov_local` (`src/archs/amd64/amd64.rs` lines 328-378).
Each iteration loads `chunk_size` bytes from
`[base + (size - chunk_size)]` into a scratch register and stores them
to the destination local `Local ⟨local.offset, chunk_size⟩`, then
decreases `size` by `chunk_size`.  The list records, in emission order,
the chunk size, the source load offset and the destination store offset
of each iteration. -/
def movLocalChunks (size : Nat) (destOffset : Nat) : List ChunkMove :=
  if h : 0 < size then
    let c := chunkSize size
    ⟨c, size - c, destOffset⟩ :: movLocalChunks (size - c) destOffset
  else
    []
termination_by size
decreasing_by
  have h1 : 1 ≤ chunkSize size := by
    unfold chunkSize
    repeat' split
    all_goals omega
  omega

/-- A register file for the divide sequence: the signed 64-bit value
held by each named qword register. -/
abbrev RegFile := String → Int

/-- Writes one register of a register file. -/
def setReg (st : RegFile) (r : String) (v : Int) : RegFile :=
  fun x => if x = r then v else st x

/-- The instruction shapes appearing in the text emitted by `Amd64::div`
(`src/archs/amd64/amd64.rs` lines 146-159). -/
inductive Instr where
  | mov (dest src : String)
  | cqo
  | idiv (src : String)

/-- Semantics of one amd64 instruction over the register file: `mov`
copies, `cqo` sign-extends `rax` into `rdx`, and `idiv r` divides the
128-bit value `rdx:rax` by the value of `r`, truncating toward zero,
leaving the quotient in `rax` and the remainder in `rdx`. -/
def step (st : RegFile) : Instr → RegFile
  | .mov d s => setReg st d (st s)
  | .cqo => setReg st "rdx" (if st "rax" < 0 then -1 else 0)
  | .idiv r =>
      let dividend := st "rdx" * 2 ^ 64 + (st "rax").emod (2 ^ 64)
      let divisor := st r
      setReg (setReg st "rax" (Int.tdiv dividend divisor)) "rdx"
        (Int.tmod dividend divisor)

/-- Runs a list of instructions left to right. -/
def run (st : RegFile) (prog : List Instr) : RegFile :=
  List.foldl step st prog

/-- Embeds the instruction sequence emitted by `Amd64::div`
(`src/archs/amd64/amd64.rs` lines 146-159) for operand registers `r1`
and `r2`: `mov rax, r1` / `cqo` / `idiv r2` / `mov r1, rax`. -/
def divEmit (r1 r2 : String) : List Instr :=
  [.mov "rax" r1, .cqo, .idiv r2, .mov r1 "rax"]

/-- Register file for the division-hazard failing input: the left
operand register `rcx` holds -7, the right operand register `rdx`
(one of the pool registers handed out by the allocator) holds the
divisor 2. -/
def st0 : RegFile := fun r => if r = "rcx" then -7 else if r = "rdx" then 2 else 0

/-- Embeds `Register` from the register module (`Register::new` calls in
`src/archs/amd64/amd64.rs` give it four named width views). -/
structure Register where
  byte : String
  word : String
  dword : String
  qword : String
deriving Repr, DecidableEq

/-- Embeds the register choice of `Amd64::move_function_argument`
(`src/archs/amd64/amd64.rs` lines 254-265):
`self.registers.get(self.registers.len() - i - 1)`.  The allocator's
`get`/`len` are not under `src/`; modelled from the spec (section 4.3:
an ordered pool, parameter `i` occupies `pool[len-1-i]`) as list
indexing and list length. -/
def moveFunctionArgumentReg (pool : List Register) (i : Nat) : Option Register :=
  pool[pool.length - i - 1]?

/-- Embeds the register choice of `Amd64::mov_param`
(`src/archs/amd64/amd64.rs` lines 390-414):
`self.registers.get(self.registers.len() - 1 - src.n)`, with the
allocator modelled as in `moveFunctionArgumentReg`. -/
def movParamReg (pool : List Register) (n : Nat) : Option Register :=
  pool[pool.length - 1 - n]?

/-- Embeds `TypeError` from the type module (the variants used by
`src/passes/type_checker.rs`). -/
inductive TypeError where
  | nonexistent (name : String)
  | mismatched (expected got : Ty)

/-- Embeds the `ParserError` variants used by
`src/passes/type_checker.rs`. -/
inductive ParserError where
  | typeE (e : TypeError)
  | symbolTable (e : SymbolTableError)

/-- Embeds `Type` from `src/type_table.rs` (the struct-table entry). -/
inductive TTType where
  | structT (ts : TypeStruct)

/-- Embeds `TypeTable` from `src/type_table.rs`. -/
abbrev TypeTable := List TTType

/-- Embeds `TypeTable::find` from `src/type_table.rs`. -/
def TypeTable.findT (tt : TypeTable) (type_name : String) : Option TTType :=
  tt.find? fun t => match t with | .structT ts => ts.name == type_name

/-- Modelled from the spec: one scope of the scope chain (`scope.rs` is
not under `src/`).  Spec section 3: each scope owns a symbol table and a
struct-type table. -/
structure ScopeFrame where
  symbols : List Symbol
  types : TypeTable

/-- Modelled from the spec: `find_type` walks outward through the
enclosing scopes until found or exhausted (spec section 4.2).  The
innermost scope is the head of the list. -/
def findTypeIn (frames : List ScopeFrame) (name : String) : Option TTType :=
  match frames with
  | [] => none
  | f :: rest =>
      match TypeTable.findT f.types name with
      | some t => some t
      | none => findTypeIn rest name

/-- Modelled from the spec: `find` for symbols walks outward through the
enclosing scopes (spec section 4.2). -/
def findSymbolIn (frames : List ScopeFrame) (name : String) : Option Symbol :=
  match frames with
  | [] => none
  | f :: rest =>
      match SymbolTable.find f.symbols name with
      | some s => some s
      | none => findSymbolIn rest name

/-- Outcome of a checker computation: an `ok` value, a returned
`ParserError` (Rust `Err`), or an aborted process (Rust `panic!`,
`assert!` or `unwrap` failure). -/
inductive TCRes (α : Type) where
  | ok (a : α)
  | err (e : ParserError)
  | fatal (msg : String)

/-- Embeds `TypeChecker::check_type` from `src/passes/type_checker.rs`
lines 197-206: a `Custom` name must resolve through the scope chain. -/
def checkType (t : Ty) (frames : List ScopeFrame) : TCRes Unit :=
  match t with
  | .custom name =>
      if (findTypeIn frames name).isNone then
        .err (.typeE (.nonexistent name))
      else
        .ok ()
  | _ => .ok ()

/-- Embeds the inner field loop of `TypeChecker::check_type_table`
(`src/passes/type_checker.rs` lines 212-217): each field type is
resolved with `check_type` (propagating its error), then compared
against `Type::Custom` of the owning struct's own name; equality is the
`panic!("Recursize type ... has infinite size")` arm. -/
def checkStructFields (sname : String) (fields : List (String × Ty))
    (frames : List ScopeFrame) : TCRes Unit :=
  match fields with
  | [] => .ok ()
  | (_, t) :: rest =>
      match checkType t frames with
      | .ok _ =>
          if Ty.beq t (.custom sname) then
            .fatal "Recursize type has infinite size"
          else
            checkStructFields sname rest frames
      | r => r

/-- Embeds `TypeChecker::check_type_table` from
`src/passes/type_checker.rs` lines 208-223. -/
def checkTypeTable (tt : TypeTable) (frames : List ScopeFrame) : TCRes Unit :=
  match tt with
  | [] => .ok ()
  | .structT ts :: rest =>
      match checkStructFields ts.name ts.fields frames with
      | .ok _ => checkTypeTable rest frames
      | r => r

/-- Modelled from the spec: the expression forms of the typed syntax
tree that the scope-balance claim exercises (the full parser AST is not
under `src/`; `check_expr` arms for these forms are embedded from
`src/passes/type_checker.rs` lines 123-128). -/
inductive LExpr where
  | lit (n : Int)
  | boolLit (b : Bool)
  | ident (name : String)

mutual

/-- Embeds `Block` as used by `src/passes/type_checker.rs`: a scope of
its own plus a statement list. -/
inductive Block where
  | mk (scope : ScopeFrame) (statements : List Stmt)

/-- Embeds the `Stmt` variants matched by `TypeChecker::check_stmt`
(`src/passes/type_checker.rs` lines 44-87); the statement-level AST is
not under `src/` and is modelled from the checker's match arms and the
spec. -/
inductive Stmt where
  | varDecl (type_ : Ty) (value : Option LExpr)
  | exprS (e : LExpr)
  | function (return_type : Ty) (params : List Ty) (block : Block)
  | returnS (e : Option LExpr)
  | ifS (condition : LExpr) (consequence : Block) (alternative : Option Block)
  | whileS (condition : LExpr) (block : Block)
  | forS (condition : Option LExpr) (block : Block)
  | continueS
  | breakS

end

/-- The scope state of a checker run: the active scope chain, the
running counts of `enter` and `leave` calls, and the enclosing
function's return type.  The counts instrument the claim about scope
balance; they change exactly when the modelled `enter`/`leave` run. -/
structure TCState where
  frames : List ScopeFrame
  enters : Nat
  leaves : Nat
  ret_type : Option Ty

/-- Modelled from the spec: `Scope::enter` pushes the block's scope onto
the chain (spec section 4.2), counted. -/
def enterScope (st : TCState) (frame : ScopeFrame) : TCState :=
  { st with frames := frame :: st.frames, enters := st.enters + 1 }

/-- Modelled from the spec: `Scope::leave` pops the innermost scope
(spec section 4.2), counted. -/
def leaveScope (st : TCState) : TCState :=
  { st with frames := st.frames.tail, leaves := st.leaves + 1 }

/-- Modelled from the spec: the type of an expression
(`Expr::type_`, not under `src/` for the checked AST).  Integer
literals carry a default 4-byte signed type, bool literals `Bool`,
identifiers the declared type of the symbol they resolve to;
`Symbol::type_` of a function symbol is a `panic!` in
`src/symbol_table.rs` lines 33-35. -/
def exprType (e : LExpr) (frames : List ScopeFrame) : TCRes Ty :=
  match e with
  | .lit _ => .ok (Ty.signedInt 4)
  | .boolLit _ => .ok .bool
  | .ident name =>
      match findSymbolIn frames name with
      | none => .err (.symbolTable (.notFound name))
      | some (.global g) => .ok g.type_
      | some (.localS l) => .ok l.type_
      | some (.param p) => .ok p.type_
      | some (.function _) => .fatal "Type of function"

/-- Embeds the `check_expr` arms reachable from the modelled expression
forms (`src/passes/type_checker.rs` lines 123-128): literals check
trivially, an identifier must resolve through the scope chain or the
check fails with `SymbolTableError::NotFound`. -/
def checkExpr (e : LExpr) (frames : List ScopeFrame) : TCRes Unit :=
  match e with
  | .lit _ => .ok ()
  | .boolLit _ => .ok ()
  | .ident name =>
      match findSymbolIn frames name with
      | none => .err (.symbolTable (.notFound name))
      | some _ => .ok ()

/-- Embeds `TypeChecker::bool_expr` from `src/passes/type_checker.rs`
lines 187-195. -/
def boolExpr (e : LExpr) (frames : List ScopeFrame) : TCRes Unit :=
  match exprType e frames with
  | .ok type_ =>
      if Ty.beq type_ .bool then .ok ()
      else .err (.typeE (.mismatched .bool type_))
  | .err e => .err e
  | .fatal m => .fatal m

/-- True on `SignedInt`/`UnsignedInt`, as the type enum's `int()`. -/
def Ty.isInt : Ty → Bool
  | .signedInt _ => true
  | .unsignedInt _ => true
  | _ => false

/-- True on `Array`, as the type enum's `arr()`. -/
def Ty.isArr : Ty → Bool
  | .array .. => true
  | _ => false

/-- As `Expr::int_lit_only` for the modelled expression forms. -/
def isIntLit : LExpr → Bool
  | .lit _ => true
  | _ => false

/-- Embeds `TypeChecker::check_assign` from
`src/passes/type_checker.rs` lines 324-352, restricted to the modelled
expression forms: the right side is checked and typed; an array-typed
destination hits the `unreachable!` panic (no array literal exists among
the modelled forms); an integer literal assigned to an integer
destination passes the `assert!` on `common_type` (modelled from spec
section 4.1: a literal-only operand reinterprets to the destination
type); otherwise `assert_eq!(left_type, right_type)` panics on
mismatch. -/
def checkAssign (left : Ty) (right : LExpr) (frames : List ScopeFrame) :
    TCRes Unit :=
  match checkExpr right frames with
  | .ok _ =>
      match exprType right frames with
      | .ok right_type =>
          if left.isArr then
            .fatal "Cannot assign non-array expression to variable of type array"
          else if left.isInt && isIntLit right then
            .ok ()
          else if Ty.beq left right_type then
            .ok ()
          else
            .fatal "assertion failed: left_type == right_type"
      | .err e => .err e
      | .fatal m => .fatal m
  | .err e => .err e
  | .fatal m => .fatal m

/-- Folds `check_type` over a parameter list, as the loop in the
`Stmt::Function` arm of `check_stmt`. -/
def checkTypes (ts : List Ty) (frames : List ScopeFrame) : TCRes Unit :=
  match ts with
  | [] => .ok ()
  | t :: rest =>
      match checkType t frames with
      | .ok _ => checkTypes rest frames
      | r => r

/-- True exactly on the returned-error outcome. -/
def TCRes.isErr {α : Type} : TCRes α → Bool
  | .err _ => true
  | _ => false

mutual

/-- Embeds `TypeChecker::check_block` from `src/passes/type_checker.rs`
lines 33-42: `enter` the block's scope, check the freshly entered
scope's type table, check each statement, and only then `leave`.  The
`?` operators of the source propagate an error immediately, skipping the
`leave`; the model returns the state reached at the moment of the early
return. -/
def checkBlock (b : Block) (st : TCState) : TCRes Unit × TCState :=
  match b with
  | .mk frame stmts =>
      let st1 := enterScope st frame
      match checkTypeTable frame.types st1.frames with
      | .ok _ =>
          match checkStmts stmts st1 with
          | (.ok _, st2) => (.ok (), leaveScope st2)
          | r => r
      | .err e => (.err e, st1)
      | .fatal m => (.fatal m, st1)

/-- The `for stmt in &block.statements` loop of `check_block`, with `?`
propagation. -/
def checkStmts (ss : List Stmt) (st : TCState) : TCRes Unit × TCState :=
  match ss with
  | [] => (.ok (), st)
  | s :: rest =>
      match checkStmt s st with
      | (.ok _, st2) => checkStmts rest st2
      | r => r

/-- Embeds `TypeChecker::check_stmt` from `src/passes/type_checker.rs`
lines 44-87, arm by arm. -/
def checkStmt (s : Stmt) (st : TCState) : TCRes Unit × TCState :=
  match s with
  | .varDecl type_ value =>
      match checkType type_ st.frames with
      | .ok _ =>
          match value with
          | some e => (checkAssign type_ e st.frames, st)
          | none => (.ok (), st)
      | r => (r, st)
  | .exprS e => (checkExpr e st.frames, st)
  | .function return_type params block =>
      match checkType return_type st.frames with
      | .ok _ =>
          match checkTypes params st.frames with
          | .ok _ => checkBlock block st
          | r => (r, st)
      | r => (r, st)
  | .returnS value =>
      match value with
      | some e =>
          match st.ret_type with
          | some rt => (checkAssign rt e st.frames, st)
          | none => (.fatal "called unwrap on None", st)
      | none => (.ok (), st)
  | .ifS condition consequence alternative =>
      match boolExpr condition st.frames with
      | .ok _ =>
          match checkBlock consequence st with
          | (.ok _, st2) =>
              match alternative with
              | some alt => checkBlock alt st2
              | none => (.ok (), st2)
          | r => r
      | r => (r, st)
  | .whileS condition block =>
      match boolExpr condition st.frames with
      | .ok _ => checkBlock block st
      | r => (r, st)
  | .forS condition block =>
      match condition with
      | some c =>
          match boolExpr c st.frames with
          | .ok _ => checkBlock block st
          | r => (r, st)
      | none => checkBlock block st
  | .continueS => (.ok (), st)
  | .breakS => (.ok (), st)

end

/-- A block whose single statement references an undeclared identifier:
the failing input of the scope-balance claim. -/
def demoBlock : Block := .mk ⟨[], []⟩ [.exprS (.ident "x")]

/-- The empty initial checker state. -/
def demoState : TCState := ⟨[], 0, 0, none⟩

/-- A struct whose only field has the struct type `B`. -/
def structA : TypeStruct := ⟨"A", [("b", Ty.custom "B")]⟩

/-- A struct whose only field has the struct type `A`, closing an
indirect recursion cycle through `structA`. -/
def structB : TypeStruct := ⟨"B", [("a", Ty.custom "A")]⟩

/-- The type table holding the two mutually recursive structs. -/
def mutualTable : TypeTable := [.structT structA, .structT structB]

/-- A scope chain in which both struct names resolve. -/
def mutualScope : List ScopeFrame := [⟨[], mutualTable⟩]

namespace Driver

/-- Modelled from the spec: the primitive types of the early driver's
parser (`parser` module of `src/main.rs`'s crate, not under `src/`
except for `src/parser/expr/expr.rs`); widths 1, 2, 4, 8 bytes, signed
and unsigned, per spec section 3. -/
inductive PType where
  | u8
  | i8
  | u16
  | i16
  | u32
  | i32
  | u64
  | i64
deriving Repr, DecidableEq

/-- Modelled from the spec: byte size of a primitive type. -/
def PType.size : PType → Nat
  | .u8 => 1
  | .i8 => 1
  | .u16 => 2
  | .i16 => 2
  | .u32 => 4
  | .i32 => 4
  | .u64 => 8
  | .i64 => 8

/-- Embeds the `BinOp` variants matched by
`CodeGen::bin_expr` in `src/codegen/codegen.rs` (the enum itself is in
`src/parser/expr/expr.rs`). -/
inductive CBinOp where
  | add
  | sub
  | mul
  | div
  | equal
  | notEqual
  | lessThan
  | greaterThan
  | lessEqual
  | greaterEqual
  | assign
deriving Repr, DecidableEq

/-- Embeds `UnOp` from `src/parser/expr/expr.rs`. -/
inductive CUnOp where
  | not
  | negative
deriving Repr, DecidableEq

/-- Embeds `CmpOp` as consumed by `CodeGen::bin_expr`. -/
inductive CCmpOp where
  | lessEqual
  | lessThan
  | greaterEqual
  | greaterThan
  | equal
  | notEqual
deriving Repr, DecidableEq

/-- Embeds `CmpOp::try_from(&BinOp)` from `src/parser/op.rs` lines
115-129: the six comparison operators map across, anything else is an
`OpParseError::Cmp`. -/
def cmpOpTryFrom (op : CBinOp) : Except Unit CCmpOp :=
  match op with
  | .lessThan => .ok .lessThan
  | .lessEqual => .ok .lessEqual
  | .greaterThan => .ok .greaterThan
  | .greaterEqual => .ok .greaterEqual
  | .equal => .ok .equal
  | .notEqual => .ok .notEqual
  | _ => .error ()

/-- Embeds the `Expr` shape consumed by `src/codegen/codegen.rs`
(`Binary`, `Unary`, `Lit`, `Ident`, `Cast`); the literal carries its
integer value.  The cast node carries the outcome of
`cast_expr.type_(&self.symtable)`, the cast expression's type
computation: that method lives in the parser module that is not under
`src/`, so the embedding is parametric in its result, covering both the
resolved-type and the type-error outcome (the error payload, a
`TypeError`, also lives in the missing module and is elided). -/
inductive CExpr where
  | binary (op : CBinOp) (left right : CExpr)
  | unary (op : CUnOp) (e : CExpr)
  | lit (n : Int)
  | ident (name : String)
  | cast (type_result : Except Unit PType) (e : CExpr)

/-- Embeds the `Stmt` shape consumed by `src/codegen/codegen.rs`:
expression statements and variable declarations. -/
inductive CStmt where
  | exprS (e : CExpr)
  | varDecl (name : String) (type_ : PType)

/-- Embeds `CodeGenError` from `src/codegen/codegen.rs` lines 14-21
(the variants the embedded fragment can produce).  `typeE` is the
`Type(TypeError)` variant, produced when a cast's type computation
fails; the `TypeError` payload lives in the type module that is not
under `src/` and is elided. -/
inductive CodeGenError where
  | allocator
  | assign (e : CExpr)
  | opParse
  | typeE

/-- A driver computation either succeeds, returns a `CodeGenError`
(Rust `Err`), or aborts the process (`unwrap`/`assert!`/`expect`
failure). -/
inductive CGFail where
  | err (e : CodeGenError)
  | fatal (msg : String)

/-- Embeds the `CodeGen` state from `src/codegen/codegen.rs` lines
53-60: the symbol table (modelled from the spec as name/type pairs of
the declared globals, `symtable.rs` not being under `src/`), the
register pool (spec section 4.3: an ordered pool; `alloc` removes and
returns an entry, failing when empty; `free` returns it), and the three
output sections. -/
structure CG where
  symtable : List (String × PType)
  pool : List String
  data_section : String
  text_section : String
  bss_section : String

/-- Embeds `CodeGen::new` from `src/codegen/codegen.rs` lines 63-81:
the initial section headers. -/
def CG.new (symtable : List (String × PType)) (registers : List String) : CG :=
  { symtable := symtable
    pool := registers
    bss_section := "section .bss\n"
    data_section := "section .data\n"
    text_section := "section .text\n    global main\n\nmain:\n" }

/-- Modelled from the spec: `RegisterAllocator::alloc` removes and
returns one pool entry, failing with the exhaustion error when the pool
is empty (spec section 4.3). -/
def allocReg (cg : CG) : Except CGFail (String × CG) :=
  match cg.pool with
  | [] => .error (.err .allocator)
  | r :: rest => .ok (r, { cg with pool := rest })

/-- Modelled from the spec: `RegisterAllocator::free` returns an entry
to the pool (spec section 4.3). -/
def freeReg (cg : CG) (r : String) : CG :=
  { cg with pool := r :: cg.pool }

/-- Modelled from the spec: the backend's `declare` reserves zeroed
static storage, one line per global (spec section 6:
`reserve <name> <size-bytes>`). -/
def archDeclare (name : String) (size : Nat) : String :=
  "\t" ++ name ++ " resb " ++ toString size ++ "\n"

/-- Modelled from the spec: the backend's `load` of a literal or symbol
into a register. -/
def archLoadLit (r : String) (n : Int) : String :=
  "\tmov " ++ r ++ ", " ++ toString n ++ "\n"

/-- Modelled from the spec: the backend's `load` of a named global. -/
def archLoadSym (r : String) (name : String) : String :=
  "\tmov " ++ r ++ ", [" ++ name ++ "]\n"

/-- Modelled from the spec: the backend's `save` of a register into a
named global. -/
def archSave (label : String) (r : String) : String :=
  "\tmov [" ++ label ++ "], " ++ r ++ "\n"

/-- Modelled from the spec: the backend's unary and binary emitters;
only the emitted text differs per operation, which the claims do not
inspect. -/
def archOp (opname : String) (r1 r2 : String) : String :=
  "\t" ++ opname ++ " " ++ r1 ++ ", " ++ r2 ++ "\n"

/-- Modelled from the spec: the backend's negate emitter. -/
def archNegate (r : String) : String :=
  "\tneg " ++ r ++ "\n"

/-- Appends text to the text section. -/
def CG.emit (cg : CG) (s : String) : CG :=
  { cg with text_section := cg.text_section ++ s }

/-- Embeds `CodeGen::load` from `src/codegen/codegen.rs` lines 184-190:
allocate a register, emit the load. -/
def loadLit (cg : CG) (n : Int) : Except CGFail (String × CG) := do
  let (r, cg) ← allocReg cg
  .ok (r, cg.emit (archLoadLit r n))

/-- Embeds `CodeGen::load` of a symbol. -/
def loadSym (cg : CG) (name : String) : Except CGFail (String × CG) := do
  let (r, cg) ← allocReg cg
  .ok (r, cg.emit (archLoadSym r name))

/-- Embeds `CodeGen::expr` and `CodeGen::bin_expr` from
`src/codegen/codegen.rs` lines 87-171 and the helpers they call
(`save`, `negate`, `not`, `add`, `sub`, `mul`, `div`, `cmp`), with `?`
propagation.  `Expr::Ident` outside an assignment goes through
`self.symtable.find(ident).unwrap()`, a process abort when the name is
missing; the `Assign` arm requires an identifier on the left, else
`CodeGenError::Assign`; when the operand of a `Cast` is an integer
literal, the arm evaluates `cast_expr.type_(&self.symtable)?`
(propagating a failed type computation as `CodeGenError::Type`, the
`?` at codegen.rs line 98) and resizes the literal to the resolved
type's width (a change of representation width only, the value
unchanged) before recursing; any other cast operand recurses
directly, without the type call. -/
def exprGen (cg : CG) : CExpr → Except CGFail (String × CG)
  | .lit n => loadLit cg n
  | .ident name =>
      match cg.symtable.find? (fun p => p.1 == name) with
      | none => .error (.fatal "called unwrap on None")
      | some _ => loadSym cg name
  | .unary op e => do
      match op with
      | .negative =>
          let (r, cg) ← exprGen cg e
          .ok (r, cg.emit (archNegate r))
      | .not =>
          let (r2, cg) ← exprGen cg e
          let (r, cg) ← allocReg cg
          let cg := cg.emit (archOp "cmpnot" r r2)
          .ok (r, freeReg cg r2)
  | .cast type_result e =>
      match e with
      | .lit _ =>
          match type_result with
          | .error _ => .error (.err .typeE)
          | .ok _ => exprGen cg e
      | _ => exprGen cg e
  | .binary op left right =>
      match op with
      | .assign =>
          match left with
          | .ident name =>
              if (cg.symtable.find? (fun p => p.1 == name)).isNone then
                .error (.fatal "assertion failed: symtable exists")
              else do
                let (r, cg) ← exprGen cg right
                .ok (r, cg.emit (archSave name r))
          | _ => .error (.err (.assign left))
      | .add => do
          let (l, cg) ← exprGen cg left
          let (r, cg) ← exprGen cg right
          let cg := cg.emit (archOp "add" l r)
          .ok (l, freeReg cg r)
      | .sub => do
          let (l, cg) ← exprGen cg left
          let (r, cg) ← exprGen cg right
          let cg := cg.emit (archOp "sub" l r)
          .ok (l, freeReg cg r)
      | .mul => do
          let (l, cg) ← exprGen cg left
          let (r, cg) ← exprGen cg right
          let cg := cg.emit (archOp "imul" l r)
          .ok (l, freeReg cg r)
      | .div => do
          let (l, cg) ← exprGen cg left
          let (r, cg) ← exprGen cg right
          let cg := cg.emit (archOp "idiv" l r)
          .ok (l, freeReg cg r)
      | _ => do
          let (l, cg) ← exprGen cg left
          let (r, cg) ← exprGen cg right
          match cmpOpTryFrom op with
          | .error _ => .error (.err .opParse)
          | .ok _ =>
              let cg := cg.emit (archOp "cmp" l r)
              .ok (l, freeReg cg r)

/-- Embeds `CodeGen::stmt` from `src/codegen/codegen.rs` lines 173-178:
expression statements generate code and drop the result register's
name; declarations append to the `.bss` section. -/
def stmtGen (cg : CG) : CStmt → Except CGFail CG
  | .exprS e => (exprGen cg e).map fun p => p.2
  | .varDecl name type_ =>
      .ok { cg with bss_section := cg.bss_section ++ archDeclare name type_.size }

/-- The `for stmt in program` loop of `CodeGen::compile`, with `?`
propagation. -/
def compileStmts (cg : CG) : List CStmt → Except CGFail CG
  | [] => .ok cg
  | s :: rest =>
      match stmtGen cg s with
      | .ok cg2 => compileStmts cg2 rest
      | .error f => .error f

/-- The bytes `CodeGen::compile` writes on success: the three sections
separated by newline bytes, then the trailing `ret`. -/
def artifact (cg : CG) : String :=
  cg.bss_section ++ "\n" ++ cg.data_section ++ "\n" ++ cg.text_section ++ "\tret"

/-- Embeds `CodeGen::compile` from `src/codegen/codegen.rs` lines
256-275.  The second component models the output file at `path`:
`File::create(path)` runs before any statement is compiled, truncating
the file to empty (`some ""`), and the section bytes are written only
after every statement succeeded. -/
def compile (cg : CG) (program : List CStmt) :
    Except CGFail Unit × Option String :=
  let file : Option String := some ""
  match compileStmts cg program with
  | .error f => (.error f, file)
  | .ok cg2 => (.ok (), some (artifact cg2))

/-- A one-statement program that fails immediately: an assignment whose
left side is a literal, hitting `CodeGenError::Assign`. -/
def demoProg : List CStmt := [.exprS (.binary .assign (.lit 1) (.lit 2))]

/-- A driver state at entry: empty symbol table, two pool registers. -/
def demoCG : CG := CG.new [] ["r8", "r9"]

/-- A declaration statement that compiles successfully, used as the
prefix preceding a failing statement. -/
def demoDecl : CStmt := .varDecl "foo" .u8

/-- The driver state reached after compiling `demoDecl` from `demoCG`:
the declaration's reservation has been appended to the `.bss`
section. -/
def demoCG1 : CG :=
  { demoCG with bss_section := demoCG.bss_section ++ archDeclare "foo" PType.u8.size }

end Driver

/-! ## Theorems -/

/-- Helper: the offset loop walked past a fresh prefix stops at the
first matching field name, having accumulated the prefix's sizes. -/
theorem offsetLoop_append (sz : Ty → Nat) (name : String) (t : Ty)
    (pre post : List (String × Ty)) (hfresh : ∀ p ∈ pre, p.1 ≠ name) :
    offsetLoop sz name (pre ++ (name, t) :: post) =
      (pre.map fun f => sz f.2).sum := by
  induction pre with
  | nil => simp [offsetLoop]
  | cons p rest ih =>
      obtain ⟨fname, ft⟩ := p
      have h1 : fname ≠ name := hfresh (fname, ft) (List.mem_cons_self _ _)
      have h2 : ∀ q ∈ rest, q.1 ≠ name := fun q hq =>
        hfresh q (List.mem_cons_of_mem _ hq)
      simp [offsetLoop, Ne.symm h1, ih h2]

/-- Helper: when no field matches, the offset loop accumulates every
field's size. -/
theorem offsetLoop_not_found (sz : Ty → Nat) (nm : String)
    (fields : List (String × Ty))
    (h : fields.any (fun f => f.1 == nm) = false) :
    offsetLoop sz nm fields = (fields.map fun f => sz f.2).sum := by
  induction fields with
  | nil => simp [offsetLoop]
  | cons p rest ih =>
      obtain ⟨fname, ft⟩ := p
      simp only [List.any_cons, Bool.or_eq_false_iff] at h
      obtain ⟨h1, h2⟩ := h
      have h1p : ¬ fname = nm := by simpa using h1
      simp [offsetLoop, Ne.symm h1p, ih h2]

/-- C1: evaluated on the failing input (a local-to-local move of 3
bytes whose destination local sits at offset 16), the loop of
`Amd64::mov_local` emits chunks of 2 then 1 bytes whose source load
offsets descend (1, then 0) and whose destination store offsets both
stay at 16.  The destination offset never advances — every chunk is
stored to the same `[rbp - 16]` — and the source offsets do not advance
monotonically either, contradicting the claim's offset-advancement
property (the chunk sizes themselves are maximal and sum to 3 as
claimed). -/
theorem movLocal_dest_offset_never_advances :
    movLocalChunks 3 16 = [⟨2, 1, 16⟩, ⟨1, 0, 16⟩] ∧
    (movLocalChunks 3 16).map ChunkMove.dest_offset = [16, 16] := by
  have h : movLocalChunks 3 16 = [⟨2, 1, 16⟩, ⟨1, 0, 16⟩] := by
    simp [movLocalChunks, chunkSize]
  exact ⟨h, by rw [h]; rfl⟩

/-- C2: `Amd64::mov_impl` emits a sign-extending `movsx` when the
destination size strictly exceeds the source size and the source is
signed, a zero-extending `movzx` when it exceeds and the source is
unsigned, and a plain `mov` at the destination's width when the
destination size is less than or equal to the source size. -/
theorem mov_extend_or_truncate (src dest : String) (src_size dest_size : Nat)
    (signed : Bool) :
    (src_size < dest_size → signed = true →
        mov_impl src src_size dest dest_size signed =
          "\tmovsx " ++ dest ++ ", " ++ src ++ "\n") ∧
    (src_size < dest_size → signed = false →
        mov_impl src src_size dest dest_size signed =
          "\tmovzx " ++ dest ++ ", " ++ src ++ "\n") ∧
    (dest_size ≤ src_size →
        mov_impl src src_size dest dest_size signed =
          "\tmov " ++ dest ++ ", " ++ src ++ "\n") := by
  refine ⟨fun h hs => ?_, fun h hs => ?_, fun h => ?_⟩
  · subst hs; simp [mov_impl, h]
  · subst hs; simp [mov_impl, h]
  · simp [mov_impl, Nat.not_lt.mpr h]

/-- Witness for the move-synthesis width cases at concrete sizes. -/
theorem mov_extend_or_truncate_witness :
    mov_impl "al" 1 "eax" 4 true = "\tmovsx eax, al\n" ∧
    mov_impl "al" 1 "eax" 4 false = "\tmovzx eax, al\n" ∧
    mov_impl "rax" 8 "ecx" 4 true = "\tmov ecx, rax\n" :=
  ⟨(mov_extend_or_truncate "al" "eax" 1 4 true).1 (by decide) rfl,
   (mov_extend_or_truncate "al" "eax" 1 4 false).2.1 (by decide) rfl,
   (mov_extend_or_truncate "rax" "ecx" 8 4 true).2.2 (by decide)⟩

/-- C3: evaluated on the failing input where the right operand occupies
the fixed remainder register `rdx` (holding divisor 2) while the left
operand `rcx` holds -7, the sequence emitted by `Amd64::div`
(`mov rax, rcx` / `cqo` / `idiv rdx` / `mov rcx, rax`) leaves 7 in the
left operand's original location: `cqo` overwrites the divisor with the
sign extension -1 before `idiv` reads it.  The mathematically correct
quotient, -7 divided by 2 truncating toward zero, is -3. -/
theorem div_rdx_hazard_wrong_quotient :
    run st0 (divEmit "rcx" "rdx") "rcx" = 7 ∧
    Int.tdiv (st0 "rcx") (st0 "rdx") = -3 ∧
    run st0 (divEmit "rcx" "rdx") "rcx" ≠ Int.tdiv (st0 "rcx") (st0 "rdx") :=
  ⟨by decide, by decide, by decide⟩

/-- C4: evaluated on the failing input — a block whose single statement
references the undeclared identifier `x` — `check_block` enters the
block scope, the statement check fails, and the `?` early return skips
`leave`: the run ends with one `enter` and zero `leave` calls, so the
enter/leave counts are not equal on this error exit. -/
theorem checkBlock_error_skips_leave :
    (checkBlock demoBlock demoState).1.isErr = true ∧
    (checkBlock demoBlock demoState).2.enters = 1 ∧
    (checkBlock demoBlock demoState).2.leaves = 0 :=
  ⟨rfl, rfl, rfl⟩

/-- C5 counterexample: on a program whose first statement fails with
`CodeGenError::Assign`, `CodeGen::compile` returns the error, yet the
output file is not absent/unmodified: `File::create` already ran before
compilation, leaving a truncated empty file behind. -/
theorem compile_error_leaves_truncated_file :
    (Driver.compile Driver.demoCG Driver.demoProg).1.isOk = false ∧
    (Driver.compile Driver.demoCG Driver.demoProg).2 = some "" :=
  ⟨rfl, rfl⟩

/-- Helper: when a prefix of the program compiles successfully and the
next statement fails, the statement loop stops with exactly that error,
whatever statements follow. -/
theorem compileStmts_append_error (pre : List Driver.CStmt)
    (s : Driver.CStmt) (rest : List Driver.CStmt) (f : Driver.CGFail) :
    ∀ (cg cg1 : Driver.CG), Driver.compileStmts cg pre = .ok cg1 →
      Driver.stmtGen cg1 s = .error f →
      Driver.compileStmts cg (pre ++ s :: rest) = .error f := by
  induction pre with
  | nil =>
      intro cg cg1 h1 h2
      simp only [Driver.compileStmts] at h1
      injection h1 with h
      subst h
      simp [Driver.compileStmts, h2]
  | cons p ps ih =>
      intro cg cg1 h1 h2
      simp only [List.cons_append, Driver.compileStmts] at h1 ⊢
      cases hp : Driver.stmtGen cg p with
      | ok cgm =>
          simp only [hp] at h1 ⊢
          exact ih cgm cg1 h1 h2
      | error fe =>
          simp [hp] at h1

/-- C5 amended: `compile` returns the first encountered error without
processing later statements — for every failing program, decomposed as
a successfully compiled prefix, the first failing statement and an
arbitrary remainder, the failing statement's error is returned and the
remainder is never compiled — and writes no section bytes on error; but
the output file is created (truncated to empty) before compilation
begins, so on error an empty output file is left behind rather than the
file being absent or unmodified.  On success the file holds the complete
artifact. -/
theorem compile_first_error_and_truncation (cg cg1 : Driver.CG)
    (pre rest : List Driver.CStmt) (s : Driver.CStmt) (f : Driver.CGFail)
    (prog : List Driver.CStmt) (cg2 : Driver.CG) :
    (Driver.compileStmts cg pre = .ok cg1 →
     Driver.stmtGen cg1 s = .error f →
        Driver.compile cg (pre ++ s :: rest) = (.error f, some "")) ∧
    (Driver.compileStmts cg prog = .ok cg2 →
        Driver.compile cg prog = (.ok (), some (Driver.artifact cg2))) := by
  constructor
  · intro h1 h2
    have h3 := compileStmts_append_error pre s rest f cg cg1 h1 h2
    simp [Driver.compile, h3]
  · intro h
    simp [Driver.compile, h]

/-- Witness for the amended compile contract: after the successful
one-declaration prefix, the failing assignment statement's error is
returned with the empty file even though another declaration follows,
and the empty program succeeds producing the complete artifact. -/
theorem compile_first_error_and_truncation_witness :
    Driver.compile Driver.demoCG
        ([Driver.demoDecl] ++
          Driver.CStmt.exprS (.binary .assign (.lit 1) (.lit 2)) ::
            [Driver.CStmt.varDecl "bar" .u8]) =
      (.error (.err (.assign (.lit 1))), some "") ∧
    Driver.compile Driver.demoCG [] =
      (.ok (), some (Driver.artifact Driver.demoCG)) :=
  ⟨(compile_first_error_and_truncation Driver.demoCG Driver.demoCG1
      [Driver.demoDecl] [Driver.CStmt.varDecl "bar" .u8]
      (Driver.CStmt.exprS (.binary .assign (.lit 1) (.lit 2)))
      (.err (.assign (.lit 1))) [] Driver.demoCG).1 rfl rfl,
   (compile_first_error_and_truncation Driver.demoCG Driver.demoCG1 [] []
      (Driver.CStmt.exprS (.lit 0)) (.err .allocator) [] Driver.demoCG).2 rfl⟩

/-- C6: evaluated on the failing input — a type table whose structs `A`
and `B` each contain a field of the other's type, an indirect recursion
cycle, in a scope where both names resolve — `check_type_table` returns
`Ok`: the indirect cycle is accepted, not rejected (only a field equal
to the owning struct's own `Custom` type is caught, and that by
`panic!` rather than a returned error). -/
theorem checkTypeTable_indirect_cycle_accepted :
    checkTypeTable mutualTable mutualScope = .ok () :=
  rfl

/-- C7: below the hard capacity, pushing a symbol whose name already
occurs in the table fails with a redeclaration error naming the
duplicate and leaves the table unchanged, while pushing a fresh name
succeeds and appends exactly that symbol. -/
theorem push_duplicate_or_fresh (st : SymbolTable) (s : Symbol)
    (h : st.length < MAX_SYMBOLS) :
    ((List.map Symbol.name st).contains s.name = true →
        SymbolTable.push st s = some (.error (.redeclaration s.name), st)) ∧
    ((List.map Symbol.name st).contains s.name = false →
        SymbolTable.push st s = some (.ok (), st ++ [s])) := by
  constructor <;> intro hc
  · rw [SymbolTable.push, if_pos h, if_pos hc]
  · rw [SymbolTable.push, if_pos h, if_neg (by rw [hc]; simp)]

/-- Witness for `push` on a one-element table: the duplicate name "x"
is rejected with the table unchanged, the fresh name "y" is appended. -/
theorem push_duplicate_or_fresh_witness :
    SymbolTable.push [Symbol.global ⟨"x", .bool⟩] (Symbol.global ⟨"x", .bool⟩) =
      some (.error (.redeclaration "x"), [Symbol.global ⟨"x", .bool⟩]) ∧
    SymbolTable.push [Symbol.global ⟨"x", .bool⟩] (Symbol.global ⟨"y", .bool⟩) =
      some (.ok (), [Symbol.global ⟨"x", .bool⟩, Symbol.global ⟨"y", .bool⟩]) :=
  ⟨(push_duplicate_or_fresh [Symbol.global ⟨"x", .bool⟩] (Symbol.global ⟨"x", .bool⟩)
      (by decide)).1 (by decide),
   (push_duplicate_or_fresh [Symbol.global ⟨"x", .bool⟩] (Symbol.global ⟨"y", .bool⟩)
      (by decide)).2 (by decide)⟩

/-- C8: for a parameter index `i` within the pool, both
`Amd64::move_function_argument` and `Amd64::mov_param` pick the pool
entry at index `len - 1 - i`, which is the pool reverse-indexed by the
parameter position. -/
theorem param_pool_reverse_index (pool : List Register) (i : Nat)
    (h : i < pool.length) :
    moveFunctionArgumentReg pool i = pool.reverse[i]? ∧
    movParamReg pool i = pool.reverse[i]? := by
  have he : pool.length - i - 1 = pool.length - 1 - i := by omega
  unfold moveFunctionArgumentReg movParamReg
  rw [he]
  exact ⟨(List.getElem?_reverse h).symm, (List.getElem?_reverse h).symm⟩

/-- Witness for the reversed parameter indexing on a two-register
pool at parameter index 0. -/
theorem param_pool_reverse_index_witness :
    moveFunctionArgumentReg
        [⟨"r15b", "r15w", "r15d", "r15"⟩, ⟨"dil", "di", "edi", "rdi"⟩] 0 =
      [(⟨"r15b", "r15w", "r15d", "r15"⟩ : Register),
       ⟨"dil", "di", "edi", "rdi"⟩].reverse[0]? ∧
    movParamReg
        [⟨"r15b", "r15w", "r15d", "r15"⟩, ⟨"dil", "di", "edi", "rdi"⟩] 0 =
      [(⟨"r15b", "r15w", "r15d", "r15"⟩ : Register),
       ⟨"dil", "di", "edi", "rdi"⟩].reverse[0]? :=
  param_pool_reverse_index _ 0 (by decide)

/-- C9: a struct's size is the sum of its field sizes with no padding;
the offset of a field that first occurs after a prefix of other-named
fields is the sum of the prefix's sizes; and querying the offset of a
name that is not a field returns the struct's total size rather than
failing. -/
theorem struct_size_and_offset (ts : TypeStruct) (sz : Ty → Nat)
    (name : String) (t : Ty) (pre post : List (String × Ty))
    (hsplit : ts.fields = pre ++ (name, t) :: post)
    (hfresh : ∀ p ∈ pre, p.1 ≠ name) :
    TypeStruct.size ts sz = (ts.fields.map fun f => sz f.2).sum ∧
    TypeStruct.offset ts sz name = (pre.map fun f => sz f.2).sum ∧
    (∀ nm, ts.containsField nm = false →
        TypeStruct.offset ts sz nm = TypeStruct.size ts sz) := by
  refine ⟨rfl, ?_, ?_⟩
  · rw [TypeStruct.offset, hsplit]
    exact offsetLoop_append sz name t pre post hfresh
  · intro nm hnm
    rw [TypeStruct.offset, TypeStruct.size]
    exact offsetLoop_not_found sz nm ts.fields (by simpa [TypeStruct.containsField] using hnm)

/-- Witness for struct layout on a two-field struct with 4-byte and
1-byte fields: the second field's offset is 4, and a missing name's
offset equals the total size 5. -/
theorem struct_size_and_offset_witness :
    TypeStruct.offset ⟨"P", [("a", Ty.signedInt 4), ("b", Ty.bool)]⟩
        (fun ty => match ty with | .signedInt w => w | _ => 1) "b" =
      ([("a", Ty.signedInt 4)].map fun f =>
        (fun ty => match ty with | Ty.signedInt w => w | _ => 1) f.2).sum ∧
    (∀ nm, TypeStruct.containsField ⟨"P", [("a", Ty.signedInt 4), ("b", Ty.bool)]⟩ nm = false →
        TypeStruct.offset ⟨"P", [("a", Ty.signedInt 4), ("b", Ty.bool)]⟩
            (fun ty => match ty with | .signedInt w => w | _ => 1) nm =
          TypeStruct.size ⟨"P", [("a", Ty.signedInt 4), ("b", Ty.bool)]⟩
            (fun ty => match ty with | .signedInt w => w | _ => 1)) :=
  ⟨(struct_size_and_offset ⟨"P", [("a", Ty.signedInt 4), ("b", Ty.bool)]⟩
      (fun ty => match ty with | .signedInt w => w | _ => 1) "b" Ty.bool
      [("a", Ty.signedInt 4)] [] rfl
      (by intro p hp
          rcases List.mem_singleton.mp hp with rfl
          decide)).2.1,
   (struct_size_and_offset ⟨"P", [("a", Ty.signedInt 4), ("b", Ty.bool)]⟩
      (fun ty => match ty with | .signedInt w => w | _ => 1) "b" Ty.bool
      [("a", Ty.signedInt 4)] [] rfl
      (by intro p hp
          rcases List.mem_singleton.mp hp with rfl
          decide)).2.2⟩

/-- C10: pushing into a table already holding `MAX_SYMBOLS` (512)
symbols trips the `assert!` and aborts the process instead of returning
a recoverable error; below 512 symbols the assertion branch is never
taken and `push` returns a value. -/
theorem push_capacity (st : SymbolTable) (s : Symbol) :
    (st.length = MAX_SYMBOLS → SymbolTable.push st s = none) ∧
    (st.length < MAX_SYMBOLS → (SymbolTable.push st s).isSome = true) := by
  constructor
  · intro h
    rw [SymbolTable.push, if_neg (by rw [h]; exact Nat.lt_irrefl _)]
  · intro h
    rw [SymbolTable.push, if_pos h]
    split <;> rfl

/-- Witness for the capacity behaviour: a 512-element table aborts, the
empty table succeeds. -/
theorem push_capacity_witness :
    SymbolTable.push (List.replicate 512 (Symbol.global ⟨"x", .bool⟩))
        (Symbol.global ⟨"y", .bool⟩) = none ∧
    (SymbolTable.push ([] : SymbolTable) (Symbol.global ⟨"y", .bool⟩)).isSome = true :=
  ⟨(push_capacity _ _).1 (by norm_num [MAX_SYMBOLS]),
   (push_capacity _ _).2 (by norm_num [MAX_SYMBOLS])⟩

end Milk
